import Mathlib

/-!
Shallow embedding of the talentlens-bot conversation core
(src/bot/handlers.py, src/services/llm_scoring.py, src/models.py),
with theorems checking the natural-language specification's claims.

Python strings are modelled as Lean `String` (a list of unicode code
points, matching Python's code-point indexing/len).  Python `str.strip`,
`str.lower`, slicing and membership are modelled by the `py*` helpers
below; `str.lower` is modelled on the ASCII and Russian Cyrillic
alphabets, the only ones occurring in the repository's literals.
-/

namespace TalentLens

/-- Python `str.strip()` on a list of code points: drop whitespace at
both ends. -/
def pyStripL (cs : List Char) : List Char :=
  ((cs.dropWhile Char.isWhitespace).reverse.dropWhile Char.isWhitespace).reverse

/-- Python `str.strip()`. -/
def pyStrip (s : String) : String := ⟨pyStripL s.data⟩

/-- Python `str.lower()` on one code point (ASCII + Russian Cyrillic). -/
def pyLowerChar (c : Char) : Char :=
  if 'A' ≤ c && c ≤ 'Z' then Char.ofNat (c.toNat + 32)
  else if 'А' ≤ c && c ≤ 'Я' then Char.ofNat (c.toNat + 32)
  else if c = 'Ё' then 'ё'
  else c

/-- Python `str.lower()` (ASCII + Russian Cyrillic). -/
def pyLower (s : String) : String := ⟨s.data.map pyLowerChar⟩

/-- Python `s.startswith(pre)`. -/
def pyStartsWith (s pre : String) : Bool := pre.data.isPrefixOf s.data

/-- Python `suf in`-free `s.endswith(suf)`. -/
def pyEndsWith (s suf : String) : Bool := suf.data.isSuffixOf s.data

/-- Python `sub in s` (substring containment). -/
def pyContains (s sub : String) : Bool := decide (sub.data <:+: s.data)

/-- Python `s[:n]` (slice of the first `n` code points). -/
def pyTake (s : String) (n : Nat) : String := ⟨s.data.take n⟩

/-- Python `s.replace(" ", "")`. -/
def pyDropSpaces (s : String) : String := ⟨s.data.filter (fun c => c ≠ ' ')⟩

/-- Python `s.replace("\n", " ")`. -/
def pyNlToSpace (s : String) : String :=
  ⟨s.data.map (fun c => if c = '\n' then ' ' else c)⟩

/-- Python `s.split(" ")` (split on every single space). -/
def splitOnSpace : List Char → List (List Char)
  | [] => [[]]
  | c :: cs =>
    match splitOnSpace cs with
    | [] => [[]]
    | w :: ws => if c = ' ' then [] :: w :: ws else (c :: w) :: ws

/-- `[w for w in t.replace("\n", " ").split(" ") if w.strip()]`. -/
def pyWords (t : String) : List (List Char) :=
  (splitOnSpace (pyNlToSpace t).data).filter (fun w => !(pyStripL w).isEmpty)

/-- `_norm` from src/bot/handlers.py: `(text or "").strip()`. -/
def _norm (text : Option String) : String := pyStrip (text.getD "")

/-- `_is_decline` from src/bot/handlers.py. -/
def _is_decline (text : String) : Bool :=
  let t := pyDropSpaces (pyLower text)
  decide (t ∈ (["нехочу", "не хочу", "declined", "нет", "skip"] : List String))

/-- `_looks_like_domain_without_scheme` from src/bot/handlers.py. -/
def _looks_like_domain_without_scheme (text : String) : Bool :=
  let t := pyLower (pyStrip text)
  if t = "" then false
  else if pyStartsWith t "http://" || pyStartsWith t "https://" then false
  else if pyContains t " " then false
  else if pyContains t "." &&
      ([".com", ".net", ".org", ".io", ".ai", ".ru", ".dev", ".app", ".me", ".co"].any
        (fun suf => pyEndsWith t suf)) then true
  else if pyContains t ".com/" || pyContains t ".ru/" || pyContains t ".io/" ||
      pyContains t ".ai/" || pyContains t ".dev/" then true
  else false

/-- `_is_reasonable_nda_note` from src/bot/handlers.py. -/
def _is_reasonable_nda_note (text : String) : Bool :=
  let t := pyStrip text
  if t = "" then false
  else if t.data.length < 8 then false
  else decide (2 ≤ (pyWords t).length)

/-- `_is_valid_http_url` from src/bot/handlers.py. -/
def _is_valid_http_url (text : String) : Bool :=
  let t := pyStrip text
  pyStartsWith t "http://" || pyStartsWith t "https://"

/-- The classification cascade of `link_handler` (src/bot/handlers.py,
lines 580-606): returns `some (project_link, project_note)` on an
accepted input, `none` when the handler replies with the corrective
"unknown format" message and keeps the state. -/
def classifyLinkFields (text : String) : Option (String × Option String) :=
  let t := pyStrip text
  let tl := pyLower t
  if _is_decline t then some ("declined", none)
  else if _is_valid_http_url t then some (t, none)
  else if tl = "nda" then some ("nda", none)
  else if _is_reasonable_nda_note t then some ("nda", some t)
  else none

/-! ### Scoring orchestrator (src/services/llm_scoring.py, src/models.py) -/

/-- `ScoreCriterion` from src/models.py (pre-validation shape: the
bounds `0 ≤ score ≤ 10` are checked by `validScoreResult`). -/
structure ScoreCriterion where
  name : String
  score_0_10 : Int
  rationale : String
  deriving DecidableEq

/-- `ScoreResult` from src/models.py (pre-validation shape). -/
structure ScoreResult where
  criteria : List ScoreCriterion
  overall_score_0_10 : Int
  hot : Bool
  summary_1_2_lines : String
  deriving DecidableEq

/-- The pydantic field constraints of `ScoreCriterion`
(`score_0_10: int = Field(ge=0, le=10)`). -/
def validCriterion (c : ScoreCriterion) : Bool :=
  decide (0 ≤ c.score_0_10) && decide (c.score_0_10 ≤ 10)

/-- The pydantic field constraints of `ScoreResult`
(`criteria: Field(min_length=3, max_length=3)`,
`overall_score_0_10: Field(ge=0, le=10)`). -/
def validScoreResult (r : ScoreResult) : Bool :=
  decide (r.criteria.length = 3) && r.criteria.all validCriterion &&
    decide (0 ≤ r.overall_score_0_10) && decide (r.overall_score_0_10 ≤ 10)

/-- What one oracle call returns, after `json.loads`: either text that
is not a JSON document of the right shape (`json.loads` or field
extraction raises), or a candidate `ScoreResult` still to be validated
against the pydantic constraints. -/
inductive OracleReply
  | malformed (err : String)
  | candidate (r : ScoreResult)

/-- `json.loads` + `ScoreResult.model_validate` applied to one oracle
reply: the `try` body of `score_candidate`. -/
def parseValidate : OracleReply → Except String ScoreResult
  | .malformed e => .error e
  | .candidate r =>
      if validScoreResult r then .ok r else .error "validation error"

/-- The stricter retry instruction appended by `score_candidate`. -/
def retrySuffix : String := "\n\nreturn valid JSON only, no prose"

/-- `score_candidate` from src/services/llm_scoring.py, with the
external oracle abstracted as `call : prompt → reply`.  Returns the
result together with the list of prompts sent to the oracle (one entry
per oracle invocation, in order). -/
def score_candidate (call : String → OracleReply) (user : String) :
    Except String ScoreResult × List String :=
  match parseValidate (call user) with
  | .ok r => (.ok r, [user])
  | .error _ =>
    let retryPrompt := user ++ retrySuffix
    match parseValidate (call retryPrompt) with
    | .ok r => (.ok r, [user, retryPrompt])
    | .error e => (.error e, [user, retryPrompt])

/-! ### The link step (`link_handler`, src/bot/handlers.py 573-777) -/

/-- Conversation steps.  aiogram state `None` is `idle`; `rules` is the
"awaiting start" state; `link` is the awaiting-link step. -/
inductive Step
  | idle | rules | q1 | q2 | q3 | q4 | q5 | q6 | link
  deriving DecidableEq

/-- Identity fields of the message sender (`message.from_user`). -/
structure UserInfo where
  tg_user_id : Nat
  username : Option String
  full_name : Option String
  deriving DecidableEq

/-- Minimal model of `json.dumps` for a string: quote, escaping
backslash and double quote (enough for the row fields no claim
inspects). -/
def jsonOfString (s : String) : String :=
  "\"" ++ ⟨s.data.flatMap (fun c =>
    if c = '"' || c = '\\' then ['\\', c] else [c])⟩ ++ "\""

/-- `json.dumps(answers, ensure_ascii=False)` for the answers mapping. -/
def jsonOfAnswers (answers : List (String × String)) : String :=
  "\x7b" ++ String.intercalate ", "
    (answers.map (fun kv => jsonOfString kv.1 ++ ": " ++ jsonOfString kv.2)) ++ "\x7d"

/-- `json.dumps(scores.model_dump(), ensure_ascii=False)`. -/
def jsonOfScores (r : ScoreResult) : String :=
  "\x7b" ++ "\"criteria\": [" ++ String.intercalate ", "
      (r.criteria.map (fun c =>
        "\x7b\"name\": " ++ jsonOfString c.name ++
        ", \"score_0_10\": " ++ toString c.score_0_10 ++
        ", \"rationale\": " ++ jsonOfString c.rationale ++ "\x7d")) ++
    "], \"overall_score_0_10\": " ++ toString r.overall_score_0_10 ++
    ", \"hot\": " ++ (if r.hot then "true" else "false") ++
    ", \"summary_1_2_lines\": " ++ jsonOfString r.summary_1_2_lines ++ "\x7d"

/-- The `row` dict built by `link_handler` (persisted via
`append_row`, shaped like `SheetRow` in src/models.py). -/
structure Row where
  timestamp_utc_iso : String
  tg_user_id : Nat
  username : Option String
  full_name : Option String
  answers_json : String
  project_link : String
  project_note : Option String
  scores_json : String
  overall_score : Int
  top_candidate : Bool
  llm_model : String
  latency_ms : Nat
  scoring_failed : Bool
  error : Option String
  deriving DecidableEq

/-- The user-visible reply chosen by `link_handler`. -/
inductive LinkReply
  | askLink     -- "Нужна ссылка (http/https) или напиши "не хочу"."
  | badFormat   -- the corrective message listing the accepted formats
  | completion  -- "Спасибо! Готово. …"
  deriving DecidableEq

/-- Everything observable `link_handler` produces. -/
structure LinkOutcome where
  step : Step
  answers : List (String × String)
  row : Option Row
  alerted : Bool
  reply : LinkReply
  deriving DecidableEq

/-- Python truthiness of the `sheet_error` variable (`None` or a
string): `None` and the empty string are falsy. -/
def truthyOptStr : Option String → Bool
  | none => false
  | some s => !(s = "")

/-- `link_handler` from src/bot/handlers.py.  External effects are
inputs: `scoring` is the outcome of `score_candidate(payload)` (an
exception's `str()` on failure), `appendErr` the outcome of
`append_row(row)` (`some` of the raised exception's `str()` on
failure), `ts` the timestamp string, `latencyMs` the measured latency.
Outputs: the new step (aiogram `set_state(None)` = `idle`), the
unchanged answers, the row handed to `append_row` (if any), whether the
admin alert send was attempted, and the user-visible reply. -/
def link_handler (msgText : Option String) (user : UserInfo)
    (answers : List (String × String)) (ts llmModel : String)
    (scoring : Except String ScoreResult) (latencyMs : Nat)
    (appendErr : Option String) : LinkOutcome :=
  let text := _norm msgText
  if text = "" then ⟨.link, answers, none, false, .askLink⟩
  else
    match classifyLinkFields text with
    | none => ⟨.link, answers, none, false, .badFormat⟩
    | some (project_link, project_note) =>
      let failRec := fun (e : String) =>
        (true, some (pyTake e 500), "\x7b\x7d", (0 : Int), false)
      let okRec := fun (scores : ScoreResult) =>
        (false, (none : Option String), jsonOfScores scores,
          scores.overall_score_0_10, scores.hot)
      let rec5 := match scoring with
        | .ok scores => okRec scores
        | .error e => failRec e
      let scoring_failed := rec5.1
      let error := rec5.2.1
      let scores_json := rec5.2.2.1
      let overall_score := rec5.2.2.2.1
      let top_candidate := rec5.2.2.2.2
      let row : Row :=
        ⟨ts, user.tg_user_id, user.username, user.full_name,
          jsonOfAnswers answers, project_link, project_note, scores_json,
          overall_score, top_candidate, llmModel, latencyMs,
          scoring_failed, error⟩
      let sheet_error := appendErr.map (fun e => pyTake e 500)
      let alerted := scoring_failed || truthyOptStr sheet_error || top_candidate
      ⟨.idle, answers, some row, alerted, .completion⟩

/-! ### Question handlers (`q1_handler` … `q6_handler`, src/bot/handlers.py 477-570)

The six handlers share one body: normalize the text; on empty text send
a reprompt and keep everything unchanged; otherwise record the answer
under the question's key and advance to the next state. -/

/-- Python dict assignment `answers[k] = v` on an association list. -/
def answersInsert : List (String × String) → String → String → List (String × String)
  | [], k, v => [(k, v)]
  | (k₀, v₀) :: rest, k, v =>
      if k₀ = k then (k, v) :: rest else (k₀, v₀) :: answersInsert rest k v

/-- The aiogram state a question handler listens on. -/
def qState : Fin 6 → Step
  | 0 => .q1 | 1 => .q2 | 2 => .q3 | 3 => .q4 | 4 => .q5 | 5 => .q6

/-- The state set after accepting the answer to question `n`. -/
def qNextState : Fin 6 → Step
  | 0 => .q2 | 1 => .q3 | 2 => .q4 | 3 => .q5 | 4 => .q6 | 5 => .link

/-- The answers key `"q1"` … `"q6"`. -/
def qKey : Fin 6 → String
  | 0 => "q1" | 1 => "q2" | 2 => "q3" | 3 => "q4" | 4 => "q5" | 5 => "q6"

/-- Result of a question handler: new step, new answers mapping, and
whether the answer was accepted (`false` = the "needs more detail"
reprompt was sent). -/
structure QOutcome where
  step : Step
  answers : List (String × String)
  accepted : Bool
  deriving DecidableEq

/-- Shared body of `q1_handler` … `q6_handler` for question `n`,
running at step `qState n` with the current `answers`. -/
def q_handler (n : Fin 6) (answers : List (String × String))
    (msgText : Option String) : QOutcome :=
  let text := _norm msgText
  if text = "" then ⟨qState n, answers, false⟩
  else ⟨qNextState n, answersInsert answers (qKey n) text, true⟩

/-! ### Restart and cancel (src/bot/handlers.py 345-350, 471-474) -/

/-- An aiogram FSM session: current state (`idle` = state `None`) and
the stored answers. -/
structure FsmSession where
  step : Step
  answers : List (String × String)
  deriving DecidableEq

/-- `restart_handler`: `state.clear()` (state `None`, empty data) then
`set_state(ScreeningStates.rules)`.  Registered without a state filter,
so it runs from any state.  Returns the new session and the row it
persists (never any). -/
def restart_handler (_s : FsmSession) : FsmSession × Option Row :=
  (⟨.rules, []⟩, none)

/-- `cancel_handler`: `state.clear()` only.  Returns the new session
and the row it persists (never any). -/
def cancel_handler (_s : FsmSession) : FsmSession × Option Row :=
  (⟨.idle, []⟩, none)

/-! ### Admin alert display name (src/bot/handlers.py 688-692) -/

/-- The `display` string built inside the admin-alert branch of
`link_handler`: `display = full_name or "Кандидат"`, then
`display += f" (@\x7busername\x7d)"` when the username is non-empty. -/
def alertDisplay (full_name username : Option String) : String :=
  let fn := pyStrip (full_name.getD "")
  let un := pyStrip (username.getD "")
  let display := if fn = "" then "Кандидат" else fn
  if un = "" then display else display ++ " (@" ++ un ++ ")"

/-! ### Admin statistics (`_render_admin_stats`, src/bot/handlers.py 131-189) -/

/-- A row as read back from the sheet: loosely-typed string fields
(`fetch_rows` pads missing cells with `""`). -/
structure RawRow where
  top_candidate : String
  overall_score : String
  scoring_failed : String
  username : String
  full_name : String
  timestamp_utc_iso : String
  deriving DecidableEq

/-- Python `int(s)` on an already-stripped string: optional sign then
decimal digits (Python also accepts underscores between digits and
non-ASCII digits; the sheet never produces those). -/
def pyParseInt (s : String) : Option Int :=
  let digitsVal := fun (ds : List Char) =>
    if ds = [] || !ds.all Char.isDigit then (none : Option Nat)
    else some (ds.foldl (fun acc c => acc * 10 + (c.toNat - 48)) 0)
  match s.data with
  | '-' :: ds => (digitsVal ds).map (fun n => -(n : Int))
  | '+' :: ds => (digitsVal ds).map (fun n => (n : Int))
  | ds => (digitsVal ds).map (fun n => (n : Int))

/-- `_to_int` from `_render_admin_stats`. -/
def _to_int (x : String) (default : Int) : Int :=
  (pyParseInt (pyStrip x)).getD default

/-- `_to_bool` from `_render_admin_stats`. -/
def _to_bool (x : String) : Bool :=
  decide (pyLower (pyStrip x) ∈ (["true", "1", "yes", "y", "да"] : List String))

/-- One entry of the `_norm` list built by `_render_admin_stats`. -/
structure NormRow where
  top_candidate : Bool
  overall : Int
  scoring_failed : Bool
  display : String
  ts : String
  deriving DecidableEq

/-- The per-row normalization of `_render_admin_stats`. -/
def normalizeRow (r : RawRow) : NormRow :=
  let username := pyStrip r.username
  let full_name := pyStrip r.full_name
  ⟨_to_bool r.top_candidate,
    _to_int r.overall_score 0,
    _to_bool r.scoring_failed,
    (if username = "" then (if full_name = "" then "unknown" else full_name)
     else "@" ++ username),
    pyStrip r.timestamp_utc_iso⟩

/-- The filtering loop of `_render_admin_stats`: a row is skipped
(`continue`) when `only_top` is set and its top flag is not. -/
def normFiltered (only_top : Bool) (rows : List RawRow) : List NormRow :=
  rows.filterMap (fun r =>
    let n := normalizeRow r
    if only_top && !n.top_candidate then none else some n)

/-- The sort key order of `sorted(_norm, key=(overall, ts), reverse=True)`:
`a` precedes `b` when `a`'s key is lexicographically at least `b`'s. -/
def keyGe (a b : NormRow) : Prop :=
  b.overall < a.overall ∨ (b.overall = a.overall ∧ b.ts ≤ a.ts)

instance : DecidableRel keyGe := fun a b => by
  unfold keyGe; infer_instance

instance : IsTotal NormRow keyGe where
  total a b := by
    unfold keyGe
    rcases lt_trichotomy a.overall b.overall with h | h | h
    · exact Or.inr (Or.inl h)
    · rcases le_total a.ts b.ts with h2 | h2
      · exact Or.inr (Or.inr ⟨h, h2⟩)
      · exact Or.inl (Or.inr ⟨h.symm, h2⟩)
    · exact Or.inl (Or.inl h)

instance : IsTrans NormRow keyGe where
  trans a b c hab hbc := by
    unfold keyGe at *
    rcases hab with h1 | ⟨h1, h1t⟩
    · rcases hbc with h2 | ⟨h2, _⟩
      · exact Or.inl (h2.trans h1)
      · exact Or.inl (h2 ▸ h1)
    · rcases hbc with h2 | ⟨h2, h2t⟩
      · exact Or.inl (h1 ▸ h2)
      · exact Or.inr ⟨h2.trans h1, h2t.trans h1t⟩

/-- Python's stable `sorted(…, reverse=True)` on the `(overall, ts)`
key: a stable sort placing greater keys first. -/
def sortDesc (l : List NormRow) : List NormRow := l.insertionSort keyGe

/-- Round half to even (what CPython's `round` computes on the exact
decimal value; the float representation can differ in the last ulp). -/
def roundHalfEven (q : ℚ) : ℤ :=
  let f := ⌊q⌋
  if q - f < 1/2 then f
  else if 1/2 < q - f then f + 1
  else if Even f then f else f + 1

/-- Python `round(x, 1)`. -/
def pyRound1 (q : ℚ) : ℚ := (roundHalfEven (10 * q) : ℚ) / 10

/-- The three outcomes `_render_admin_stats` can render: the "never
ran" indicator, the "no top candidates" indicator, and a statistics
block.  The Python function renders these into message text; the
aggregates below are exactly the values interpolated into it. -/
inductive StatsOutcome
  | noRuns
  | noTop
  | stats (total : Nat) (avg : ℚ) (topCount failedCount : Nat)
      (top3 : List NormRow)
  deriving DecidableEq

/-- `_render_admin_stats` from src/bot/handlers.py, with the fetched
rows as input. -/
def _render_admin_stats (only_top : Bool) (rows : List RawRow) : StatsOutcome :=
  if rows = [] then .noRuns
  else
    let _norm := normFiltered only_top rows
    if _norm = [] then .noTop
    else
      let total := _norm.length
      let top_count := (_norm.filter (fun x => x.top_candidate)).length
      let failed_count := (_norm.filter (fun x => x.scoring_failed)).length
      let avg := pyRound1 (((_norm.map (fun x => x.overall)).sum : ℚ) / (max total 1 : ℚ))
      let top3 := (sortDesc _norm).take 3
      .stats total avg top_count failed_count top3

/-! ### Helper lemmas about the Python string model -/

theorem mem_of_mem_stripL {c : Char} {l : List Char} (h : c ∈ pyStripL l) : c ∈ l := by
  unfold pyStripL at h
  rw [List.mem_reverse] at h
  have h2 := (List.dropWhile_sublist _).subset h
  rw [List.mem_reverse] at h2
  exact (List.dropWhile_sublist _).subset h2

theorem dropWhile_eq_self_of_head (p : Char → Bool) (l : List Char)
    (h : ∀ c, l.head? = some c → p c = false) : l.dropWhile p = l := by
  cases l with
  | nil => rfl
  | cons x xs =>
    rw [List.dropWhile_cons, if_neg]
    simp [h x rfl]

theorem head_dropWhile_false (p : Char → Bool) (l : List Char) (c : Char)
    (h : (l.dropWhile p).head? = some c) : p c = false := by
  induction l with
  | nil => simp [List.dropWhile] at h
  | cons x xs ih =>
    rw [List.dropWhile_cons] at h
    by_cases hx : p x
    · rw [if_pos hx] at h; exact ih h
    · rw [if_neg hx] at h
      simp only [List.head?_cons, Option.some.injEq] at h
      subst h
      simpa using hx

theorem stripL_idem (l : List Char) : pyStripL (pyStripL l) = pyStripL l := by
  unfold pyStripL
  by_cases hB : (l.dropWhile Char.isWhitespace).reverse.dropWhile Char.isWhitespace = []
  · rw [hB]; rfl
  · have hpre : ∃ X, l.dropWhile Char.isWhitespace =
        ((l.dropWhile Char.isWhitespace).reverse.dropWhile Char.isWhitespace).reverse ++ X := by
      refine ⟨((l.dropWhile Char.isWhitespace).reverse.takeWhile Char.isWhitespace).reverse, ?_⟩
      conv_lhs => rw [← (l.dropWhile Char.isWhitespace).reverse_reverse,
        ← List.takeWhile_append_dropWhile (p := Char.isWhitespace)
          (l := (l.dropWhile Char.isWhitespace).reverse)]
      rw [List.reverse_append]
    obtain ⟨X, hX⟩ := hpre
    have hBrev_ne : ((l.dropWhile Char.isWhitespace).reverse.dropWhile Char.isWhitespace).reverse ≠ [] := by
      simpa using hB
    have hhead : ∀ c, (((l.dropWhile Char.isWhitespace).reverse.dropWhile Char.isWhitespace).reverse).head? = some c →
        Char.isWhitespace c = false := by
      intro c hc
      have h1 : (l.dropWhile Char.isWhitespace).head? = some c := by
        rw [hX, List.head?_append_of_ne_nil _ hBrev_ne]
        exact hc
      exact head_dropWhile_false _ _ _ h1
    rw [dropWhile_eq_self_of_head _ _ hhead, List.reverse_reverse,
      dropWhile_eq_self_of_head _ _ (fun c hc => head_dropWhile_false _ _ _ hc)]

theorem pyStrip_idem (s : String) : pyStrip (pyStrip s) = pyStrip s :=
  String.ext (stripL_idem s.data)

theorem singleton_infix_iff (a : Char) (l : List Char) : [a] <:+: l ↔ a ∈ l := by
  constructor
  · rintro ⟨s, t, rfl⟩; simp
  · intro h
    obtain ⟨s, t, rfl⟩ := List.append_of_mem h
    exact ⟨s, t, by simp⟩

theorem mem_of_pyContains {s sub : String} {c : Char}
    (h : pyContains s sub = true) (hc : c ∈ sub.data) : c ∈ s.data := by
  rw [pyContains, decide_eq_true_iff] at h
  exact h.sublist.subset hc

theorem pyStartsWith_iff {s pre : String} :
    pyStartsWith s pre = true ↔ pre.data <+: s.data := by
  rw [pyStartsWith, List.isPrefixOf_iff_prefix]

theorem pyStartsWith_lower {t pre : String}
    (hfix : pre.data.map pyLowerChar = pre.data)
    (h : pyStartsWith t pre = true) : pyStartsWith (pyLower t) pre = true := by
  rw [pyStartsWith_iff] at h ⊢
  obtain ⟨rest, hrest⟩ := h
  refine ⟨rest.map pyLowerChar, ?_⟩
  show pre.data ++ rest.map pyLowerChar = (pyLower t).data
  rw [pyLower]
  show pre.data ++ rest.map pyLowerChar = t.data.map pyLowerChar
  rw [← hrest, List.map_append, hfix]

theorem splitOnSpace_no_space (l : List Char) (h : ' ' ∉ l) : splitOnSpace l = [l] := by
  induction l with
  | nil => rfl
  | cons c cs ih =>
    have hc : ¬(c = ' ') := fun h1 => h (h1 ▸ List.mem_cons_self c cs)
    have hcs : splitOnSpace cs = [cs] := ih (fun hm => h (List.mem_cons_of_mem _ hm))
    simp [splitOnSpace, hcs, hc]

theorem pyNlToSpace_eq_self (t : String) (h : '\n' ∉ t.data) : pyNlToSpace t = t := by
  apply String.ext
  show t.data.map _ = t.data
  rw [List.map_congr_left (g := id), List.map_id]
  intro c hc
  have : ¬(c = '\n') := fun h1 => h (h1 ▸ hc)
  simp [this]

theorem pyWords_length_le_one (t : String) (hsp : ' ' ∉ t.data) (hnl : '\n' ∉ t.data) :
    (pyWords t).length ≤ 1 := by
  unfold pyWords
  rw [pyNlToSpace_eq_self t hnl, splitOnSpace_no_space t.data hsp]
  exact le_trans (List.length_filter_le _ _) (by simp)

/-! ### Classifier-level lemmas -/

theorem mem_dropSpaces {c : Char} {s : String} (h : c ∈ s.data) (hc : c ≠ ' ') :
    c ∈ (pyDropSpaces s).data := by
  show c ∈ s.data.filter _
  rw [List.mem_filter]
  exact ⟨h, by simp [hc]⟩

/-- A text whose lowering contains a dot is not a decline phrase. -/
theorem not_decline_of_dot (t : String) (hdot : '.' ∈ (pyLower t).data) :
    _is_decline t = false := by
  rw [_is_decline, decide_eq_false_iff_not]
  intro hmem
  have hdot2 : '.' ∈ (pyDropSpaces (pyLower t)).data :=
    mem_dropSpaces hdot (by decide)
  simp only [List.mem_cons, List.not_mem_nil, or_false] at hmem
  rcases hmem with h | h | h | h | h <;> rw [h] at hdot2 <;> exact absurd hdot2 (by decide)

/-- A text starting with `http` is not a decline phrase. -/
theorem not_decline_of_http (t : String) (hpre : ("http".data : List Char) <+: t.data) :
    _is_decline t = false := by
  rw [_is_decline, decide_eq_false_iff_not]
  intro hmem
  obtain ⟨rest, hrest⟩ := hpre
  have hlowpre : ("http".data : List Char) <+: (pyLower t).data := by
    refine ⟨rest.map pyLowerChar, ?_⟩
    show "http".data ++ rest.map pyLowerChar = t.data.map pyLowerChar
    rw [← hrest, List.map_append]
    rfl
  obtain ⟨rest2, hrest2⟩ := hlowpre
  have hcompact : ("http".data : List Char) <+: (pyDropSpaces (pyLower t)).data := by
    refine ⟨rest2.filter (fun c => c ≠ ' '), ?_⟩
    show "http".data ++ _ = ((pyLower t).data).filter _
    rw [← hrest2, List.filter_append]
    rfl
  simp only [List.mem_cons, List.not_mem_nil, or_false] at hmem
  rcases hmem with h | h | h | h | h <;> rw [h] at hcompact <;> exact absurd hcompact (by decide)

/-- Unfolding of a successful `_looks_like_domain_without_scheme` check. -/
theorem dws_facts (text : String) (h : _looks_like_domain_without_scheme text = true) :
    pyLower (pyStrip text) ≠ "" ∧
    pyStartsWith (pyLower (pyStrip text)) "http://" = false ∧
    pyStartsWith (pyLower (pyStrip text)) "https://" = false ∧
    pyContains (pyLower (pyStrip text)) " " = false ∧
    '.' ∈ (pyLower (pyStrip text)).data := by
  rw [_looks_like_domain_without_scheme] at h
  by_cases h1 : pyLower (pyStrip text) = ""
  · rw [if_pos h1] at h; exact absurd h (by simp)
  rw [if_neg h1] at h
  by_cases h2 : (pyStartsWith (pyLower (pyStrip text)) "http://" ||
      pyStartsWith (pyLower (pyStrip text)) "https://") = true
  · rw [if_pos h2] at h; exact absurd h (by simp)
  rw [if_neg h2] at h
  rw [Bool.not_eq_true, Bool.or_eq_false_iff] at h2
  by_cases h3 : pyContains (pyLower (pyStrip text)) " " = true
  · rw [if_pos h3] at h; exact absurd h (by simp)
  rw [if_neg h3] at h
  rw [Bool.not_eq_true] at h3
  refine ⟨h1, h2.1, h2.2, h3, ?_⟩
  by_cases h4 : (pyContains (pyLower (pyStrip text)) "." &&
      ([".com", ".net", ".org", ".io", ".ai", ".ru", ".dev", ".app", ".me", ".co"].any
        (fun suf => pyEndsWith (pyLower (pyStrip text)) suf))) = true
  · rw [Bool.and_eq_true] at h4
    exact mem_of_pyContains h4.1 (by decide)
  rw [if_neg h4] at h
  by_cases h5 : (pyContains (pyLower (pyStrip text)) ".com/" ||
      pyContains (pyLower (pyStrip text)) ".ru/" ||
      pyContains (pyLower (pyStrip text)) ".io/" ||
      pyContains (pyLower (pyStrip text)) ".ai/" ||
      pyContains (pyLower (pyStrip text)) ".dev/") = true
  · simp only [Bool.or_eq_true] at h5
    rcases h5 with ((((h5 | h5) | h5) | h5) | h5) <;>
      exact mem_of_pyContains h5 (by decide)
  · rw [if_neg h5] at h; exact absurd h (by simp)

/-- With no space and no newline in the (stripped) text there is at
most one word, so the NDA-note predicate rejects it. -/
theorem nda_note_false_of_single (t : String)
    (hsp : ' ' ∉ (pyStrip t).data) (hnl : '\n' ∉ (pyStrip t).data) :
    _is_reasonable_nda_note t = false := by
  rw [_is_reasonable_nda_note]
  by_cases h0 : pyStrip t = ""
  · simp [h0]
  rw [if_neg h0]
  have hwords := pyWords_length_le_one (pyStrip t) hsp hnl
  by_cases h8 : (pyStrip t).data.length < 8
  · rw [if_pos h8]
  · rw [if_neg h8, decide_eq_false_iff_not]
    omega

/-! ### Structural lemmas about `classifyLinkFields` and `link_handler` -/

/-- Case analysis of an accepted link classification. -/
theorem classifyLinkFields_cases {text pl : String} {pn : Option String}
    (h : classifyLinkFields text = some (pl, pn)) :
    (_is_decline (pyStrip text) = true ∧ pl = "declined" ∧ pn = none) ∨
    (_is_decline (pyStrip text) = false ∧ _is_valid_http_url (pyStrip text) = true ∧
      pl = pyStrip text ∧ pn = none) ∨
    (_is_decline (pyStrip text) = false ∧ _is_valid_http_url (pyStrip text) = false ∧
      pyLower (pyStrip text) = "nda" ∧ pl = "nda" ∧ pn = none) ∨
    (_is_decline (pyStrip text) = false ∧ _is_valid_http_url (pyStrip text) = false ∧
      pyLower (pyStrip text) ≠ "nda" ∧ _is_reasonable_nda_note (pyStrip text) = true ∧
      pl = "nda" ∧ pn = some (pyStrip text)) := by
  rw [classifyLinkFields] at h
  by_cases h1 : _is_decline (pyStrip text) = true
  · rw [if_pos h1] at h
    simp only [Option.some.injEq, Prod.mk.injEq] at h
    exact Or.inl ⟨h1, h.1.symm, h.2.symm⟩
  rw [if_neg h1] at h
  rw [Bool.not_eq_true] at h1
  by_cases h2 : _is_valid_http_url (pyStrip text) = true
  · rw [if_pos h2] at h
    simp only [Option.some.injEq, Prod.mk.injEq] at h
    exact Or.inr (Or.inl ⟨h1, h2, h.1.symm, h.2.symm⟩)
  rw [if_neg h2] at h
  rw [Bool.not_eq_true] at h2
  by_cases h3 : pyLower (pyStrip text) = "nda"
  · rw [if_pos h3] at h
    simp only [Option.some.injEq, Prod.mk.injEq] at h
    exact Or.inr (Or.inr (Or.inl ⟨h1, h2, h3, h.1.symm, h.2.symm⟩))
  rw [if_neg h3] at h
  by_cases h4 : _is_reasonable_nda_note (pyStrip text) = true
  · rw [if_pos h4] at h
    simp only [Option.some.injEq, Prod.mk.injEq] at h
    exact Or.inr (Or.inr (Or.inr ⟨h1, h2, h3, h4, h.1.symm, h.2.symm⟩))
  · rw [if_neg h4] at h; exact absurd h (by simp)

theorem classifyLinkFields_empty : classifyLinkFields "" = none := by decide

/-- `link_handler` on an accepted classification and a successful
scoring call. -/
theorem linkHandler_ok (msgText : Option String) (user : UserInfo)
    (answers : List (String × String)) (ts llmModel : String)
    (s : ScoreResult) (latencyMs : Nat) (appendErr : Option String)
    (pl : String) (pn : Option String)
    (hcls : classifyLinkFields (_norm msgText) = some (pl, pn)) :
    link_handler msgText user answers ts llmModel (.ok s) latencyMs appendErr =
      ⟨.idle, answers,
        some ⟨ts, user.tg_user_id, user.username, user.full_name,
          jsonOfAnswers answers, pl, pn, jsonOfScores s,
          s.overall_score_0_10, s.hot, llmModel, latencyMs, false, none⟩,
        truthyOptStr (appendErr.map (fun e => pyTake e 500)) || s.hot,
        .completion⟩ := by
  have hne : ¬(_norm msgText = "") := by
    intro h0; rw [h0, classifyLinkFields_empty] at hcls; exact absurd hcls (by simp)
  rw [link_handler]
  simp only [if_neg hne, hcls, Bool.false_or]

/-- `link_handler` on an accepted classification and a failed scoring
call (exception text `e`). -/
theorem linkHandler_err (msgText : Option String) (user : UserInfo)
    (answers : List (String × String)) (ts llmModel : String)
    (e : String) (latencyMs : Nat) (appendErr : Option String)
    (pl : String) (pn : Option String)
    (hcls : classifyLinkFields (_norm msgText) = some (pl, pn)) :
    link_handler msgText user answers ts llmModel (.error e) latencyMs appendErr =
      ⟨.idle, answers,
        some ⟨ts, user.tg_user_id, user.username, user.full_name,
          jsonOfAnswers answers, pl, pn, "\x7b\x7d",
          0, false, llmModel, latencyMs, true, some (pyTake e 500)⟩,
        true,
        .completion⟩ := by
  have hne : ¬(_norm msgText = "") := by
    intro h0; rw [h0, classifyLinkFields_empty] at hcls; exact absurd hcls (by simp)
  rw [link_handler]
  simp only [if_neg hne, hcls, Bool.true_or]

/-- `link_handler` on a rejected classification. -/
theorem linkHandler_rejected (msgText : Option String) (user : UserInfo)
    (answers : List (String × String)) (ts llmModel : String)
    (scoring : Except String ScoreResult) (latencyMs : Nat) (appendErr : Option String)
    (hne : _norm msgText ≠ "")
    (hcls : classifyLinkFields (_norm msgText) = none) :
    link_handler msgText user answers ts llmModel scoring latencyMs appendErr =
      ⟨.link, answers, none, false, .badFormat⟩ := by
  rw [link_handler]
  simp only [if_neg hne, hcls]

/-! ### Lemmas for the alert condition and the admin summary -/

theorem truthy_take500 (o : Option String) :
    truthyOptStr (o.map (fun e => pyTake e 500)) = true ↔
      ∃ e, o = some e ∧ e ≠ "" := by
  cases o with
  | none => simp [truthyOptStr]
  | some e =>
    show (!decide (pyTake e 500 = "")) = true ↔ _
    rw [Bool.not_eq_true', decide_eq_false_iff_not]
    constructor
    · intro h
      exact ⟨e, rfl, fun h0 => h (by rw [h0]; rfl)⟩
    · rintro ⟨e2, he, hne⟩ h0
      obtain rfl : e = e2 := Option.some.inj he
      apply hne
      apply String.ext
      have hdata : e.data.take 500 = [] := congrArg String.data h0
      rcases List.take_eq_nil_iff.mp hdata with h | h
      · exact absurd h (by decide)
      · exact h

/-- The interleaved filter of `_render_admin_stats` with `only_top`
equals normalize-then-filter. -/
theorem normFiltered_true (rows : List RawRow) :
    normFiltered true rows = (rows.map normalizeRow).filter (fun n => n.top_candidate) := by
  induction rows with
  | nil => rfl
  | cons r rs ih =>
    rw [normFiltered] at ih ⊢
    rw [List.filterMap_cons]
    simp only [Bool.true_and, Bool.not_eq_true'] at ih ⊢
    by_cases h : (normalizeRow r).top_candidate
    · simp [h, ih]
    · simp only [Bool.not_eq_true] at h
      simp [h, ih]

/-- The rows with the top-candidate flag set, normalized. -/
def keptTop (rows : List RawRow) : List NormRow :=
  (rows.map normalizeRow).filter (fun n => n.top_candidate)

/-- Specification-side summary for the top-only view: normalize every
fetched row, keep exactly the top-flagged ones, and compute every
aggregate over that filtered list. -/
def adminStatsSpecTop (rows : List RawRow) : StatsOutcome :=
  if rows = [] then .noRuns
  else if keptTop rows = [] then .noTop
  else .stats (keptTop rows).length
    (pyRound1 ((((keptTop rows).map (fun x => x.overall)).sum : ℚ) / ((keptTop rows).length : ℚ)))
    ((keptTop rows).filter (fun x => x.top_candidate)).length
    ((keptTop rows).filter (fun x => x.scoring_failed)).length
    ((sortDesc (keptTop rows)).take 3)

theorem renderAdminStats_top_eq (rows : List RawRow) :
    _render_admin_stats true rows = adminStatsSpecTop rows := by
  rw [_render_admin_stats, adminStatsSpecTop]
  by_cases h0 : rows = []
  · rw [if_pos h0, if_pos h0]
  rw [if_neg h0, if_neg h0]
  rw [show normFiltered true rows = keptTop rows from normFiltered_true rows]
  by_cases h1 : keptTop rows = []
  · rw [if_pos h1, if_pos h1]
  rw [if_neg h1, if_neg h1]
  have hlen : 1 ≤ (keptTop rows).length :=
    Nat.one_le_iff_ne_zero.mpr (fun h => h1 (List.length_eq_zero.mp h))
  have hmaxq : max ((keptTop rows).length : ℚ) 1 = ((keptTop rows).length : ℚ) :=
    max_eq_left (by exact_mod_cast hlen)
  simp only [hmaxq]

/-! ### Claim theorems -/

/-- C2: `score_candidate` invokes the scoring oracle once; if the
returned text fails to parse or validate against the `ScoreResult`
schema it retries exactly once with the stricter JSON-only instruction
appended to the prompt; if the retry also fails the error propagates
with no further retries; and a criteria list of length 2 or a
criterion score of 11 fails validation (so triggers the single
retry). -/
theorem C2_score_candidate_retry_once :
    (∀ (call : String → OracleReply) (user : String) (r : ScoreResult),
      parseValidate (call user) = .ok r →
        score_candidate call user = (.ok r, [user])) ∧
    (∀ (call : String → OracleReply) (user e : String),
      parseValidate (call user) = .error e →
        (score_candidate call user).2 = [user, user ++ retrySuffix]) ∧
    (∀ (call : String → OracleReply) (user e₁ e₂ : String),
      parseValidate (call user) = .error e₁ →
      parseValidate (call (user ++ retrySuffix)) = .error e₂ →
        (score_candidate call user).1 = .error e₂) ∧
    (∀ res : ScoreResult, res.criteria.length = 2 → validScoreResult res = false) ∧
    (∀ res : ScoreResult, (∃ c ∈ res.criteria, c.score_0_10 = 11) →
        validScoreResult res = false) := by
  refine ⟨?_, ?_, ?_, ?_, ?_⟩
  · intro call user r h
    rw [score_candidate, h]
  · intro call user e h
    rw [score_candidate, h]
    cases h2 : parseValidate (call (user ++ retrySuffix)) <;> simp [h2]
  · intro call user e₁ e₂ h1 h2
    rw [score_candidate, h1]
    show (match parseValidate (call (user ++ retrySuffix)) with
      | .ok r => (Except.ok r, [user, user ++ retrySuffix])
      | .error e => (Except.error e, [user, user ++ retrySuffix])).1 = Except.error e₂
    rw [h2]
  · intro res h
    rw [validScoreResult, h]
    simp
  · rintro res ⟨c, hmem, hs⟩
    have hc : res.criteria.all validCriterion = false :=
      List.all_eq_false.mpr ⟨c, hmem, by simp [validCriterion, hs]⟩
    rw [validScoreResult, hc]
    simp

/-- C2 witness: a concrete oracle that always answers unparseable text
makes `score_candidate` send exactly the two prompts and surface the
error, and concrete invalid `ScoreResult`s fail validation. -/
theorem C2_witness :
    ((score_candidate (fun _ => OracleReply.malformed "boom") "u").1 = Except.error "boom" ∧
      (score_candidate (fun _ => OracleReply.malformed "boom") "u").2 =
        ["u", "u" ++ retrySuffix]) ∧
    validScoreResult ⟨[⟨"a", 5, "r"⟩, ⟨"b", 5, "r"⟩], 5, false, "s"⟩ = false ∧
    validScoreResult ⟨[⟨"a", 11, "r"⟩, ⟨"b", 5, "r"⟩, ⟨"c", 5, "r"⟩], 5, false, "s"⟩ = false := by
  refine ⟨⟨?_, ?_⟩, ?_, ?_⟩
  · exact C2_score_candidate_retry_once.2.2.1 _ "u" "boom" "boom" rfl rfl
  · exact C2_score_candidate_retry_once.2.1 _ "u" "boom" rfl
  · exact C2_score_candidate_retry_once.2.2.2.1 _ rfl
  · exact C2_score_candidate_retry_once.2.2.2.2 _
      ⟨⟨"a", 11, "r"⟩, List.mem_cons_self _ _, rfl⟩

/-- C4 counterexample: the claim says an explicit restart returns the
session to Idle, but `restart_handler` ends in the rules
(awaiting-start) state, not Idle. -/
theorem C4_counterexample :
    (restart_handler ⟨Step.q3, [("q1", "a")]⟩).1.step ≠ Step.idle := by
  decide

/-- C4 (amended): from any non-Idle state, cancel returns to Idle with
an empty answers mapping and persists no record; restart likewise
discards all answers and persists no record, but moves to the
awaiting-start (rules) state rather than Idle. -/
theorem C4_cancel_restart_reset (s : FsmSession) (_h : s.step ≠ Step.idle) :
    cancel_handler s = (⟨Step.idle, []⟩, none) ∧
      restart_handler s = (⟨Step.rules, []⟩, none) :=
  ⟨rfl, rfl⟩

/-- C4 witness: the amended claim at a concrete mid-flow session. -/
theorem C4_witness :
    Step.q3 ≠ Step.idle ∧
      (cancel_handler ⟨Step.q3, [("q1", "a")]⟩ = (⟨Step.idle, []⟩, none) ∧
        restart_handler ⟨Step.q3, [("q1", "a")]⟩ = (⟨Step.rules, []⟩, none)) :=
  ⟨by decide, C4_cancel_restart_reset ⟨Step.q3, [("q1", "a")]⟩ (by decide)⟩

/-- C7: at every question step Q1..Q6, a message whose text is empty or
whitespace-only after trimming leaves the step unchanged and adds no
entry to the answers mapping; only a reprompt is sent. -/
theorem C7_empty_answer_keeps_state (n : Fin 6)
    (answers : List (String × String)) (msgText : Option String)
    (h : _norm msgText = "") :
    q_handler n answers msgText = ⟨qState n, answers, false⟩ := by
  simp [q_handler, h]

/-- C7 witness: a whitespace-only message at Q3 with one stored answer. -/
theorem C7_witness :
    _norm (some "  \n ") = "" ∧
      q_handler 2 [("q1", "a")] (some "  \n ") = ⟨Step.q3, [("q1", "a")], false⟩ := by
  refine ⟨by decide, ?_⟩
  rw [C7_empty_answer_keeps_state 2 [("q1", "a")] (some "  \n ") (by decide)]
  rfl

/-! ### Concrete sample data for witnesses and counterexamples -/

/-- A concrete valid, non-hot score result. -/
def sampleScoreOk : ScoreResult :=
  ⟨[⟨"Practical AI Application", 5, "ok"⟩, ⟨"AI Reasoning & Control", 6, "ok"⟩,
    ⟨"AI Product Thinking", 4, "ok"⟩], 5, false, "fine"⟩

/-- A concrete message sender. -/
def sampleUser : UserInfo := ⟨42, some "alice", some "Алиса"⟩

/-- The row `link_handler` builds for a URL submission whose scoring
call failed with `"boom"`. -/
def sampleErrRow : Row :=
  ⟨"ts", 42, some "alice", some "Алиса", jsonOfAnswers [], "https://y.com", none,
    "\x7b\x7d", 0, false, "m", 1, true, some "boom"⟩

/-- The row `link_handler` builds for an accepted NDA note submission
scored with `sampleScoreOk`. -/
def sampleNoteRow : Row :=
  ⟨"ts", 42, some "alice", some "Алиса", jsonOfAnswers [], "nda",
    some "nda: built a RAG pipeline", jsonOfScores sampleScoreOk, 5, false, "m", 1,
    false, none⟩

/-- C5 counterexample: the claim says the admin alert fires whenever
the row-store append failed, but `link_handler` tests the Python
truthiness of the exception text, so an append failure whose exception
stringifies to `""` fires no alert. -/
theorem C5_counterexample :
    (link_handler (some "https://x.com") sampleUser [("q1", "a")] "2026-01-01T00:00:00Z"
        "gpt-4o" (.ok sampleScoreOk) 100 (some "")).row ≠ none ∧
    (some "" : Option String) ≠ none ∧
    (link_handler (some "https://x.com") sampleUser [("q1", "a")] "2026-01-01T00:00:00Z"
        "gpt-4o" (.ok sampleScoreOk) 100 (some "")).alerted = false := by
  refine ⟨by decide, by simp, by decide⟩

/-- C5 (amended): for every completed session (one that persists a
row), the admin alert is attempted if and only if the scoring step
failed, or the row-store append failed with a non-empty exception
text, or the top-candidate flag is true. -/
theorem C5_alert_condition (msgText : Option String) (user : UserInfo)
    (answers : List (String × String)) (ts llmModel : String)
    (scoring : Except String ScoreResult) (latencyMs : Nat)
    (appendErr : Option String) (row : Row)
    (h : (link_handler msgText user answers ts llmModel scoring latencyMs appendErr).row =
        some row) :
    (link_handler msgText user answers ts llmModel scoring latencyMs appendErr).alerted = true ↔
      (row.scoring_failed = true ∨ (∃ e, appendErr = some e ∧ e ≠ "") ∨
        row.top_candidate = true) := by
  by_cases hne : _norm msgText = ""
  · rw [link_handler, if_pos hne] at h
    exact absurd h (by simp)
  cases hcls : classifyLinkFields (_norm msgText) with
  | none =>
    rw [linkHandler_rejected _ _ _ _ _ _ _ _ hne hcls] at h
    exact absurd h (by simp)
  | some pf =>
    obtain ⟨pl, pn⟩ := pf
    cases scoring with
    | ok s =>
      rw [linkHandler_ok _ _ _ _ _ _ _ _ _ _ hcls] at h ⊢
      obtain rfl : _ = row := Option.some.inj h
      simp only [Bool.or_eq_true, truthy_take500]
      constructor
      · rintro (ht | hh)
        · exact Or.inr (Or.inl ht)
        · exact Or.inr (Or.inr hh)
      · rintro (hf | ht | hh)
        · exact absurd hf (by simp)
        · exact Or.inl ht
        · exact Or.inr hh
    | error e =>
      rw [linkHandler_err _ _ _ _ _ _ _ _ _ _ hcls] at h ⊢
      obtain rfl : _ = row := Option.some.inj h
      simp

/-- C5 witness: a scoring failure on a completed session triggers the
alert. -/
theorem C5_witness :
    (link_handler (some "https://y.com") sampleUser [] "ts" "m" (.error "boom") 1 none).alerted =
      true :=
  (C5_alert_condition (some "https://y.com") sampleUser [] "ts" "m" (.error "boom") 1 none
      sampleErrRow (by decide)).mpr (Or.inl (by decide))

/-- C9 counterexample: the claim says the alert display name prefers
the handle, but with a handle present and no full name the code shows
the generic placeholder (with the handle only parenthesized), not the
handle. -/
theorem C9_counterexample :
    alertDisplay none (some "alice") = "Кандидат (@alice)" ∧
      alertDisplay none (some "alice") ≠ "@alice" := by
  decide

/-- C9 (amended): the alert display name is based on the full name,
falling back to the generic placeholder whenever the full name is
missing or blank; when a handle exists it is appended in parentheses
after that base name. -/
theorem C9_display_name (full_name username : Option String) :
    (pyStrip (full_name.getD "") ≠ "" → pyStrip (username.getD "") ≠ "" →
      alertDisplay full_name username =
        pyStrip (full_name.getD "") ++ " (@" ++ pyStrip (username.getD "") ++ ")") ∧
    (pyStrip (full_name.getD "") ≠ "" → pyStrip (username.getD "") = "" →
      alertDisplay full_name username = pyStrip (full_name.getD "")) ∧
    (pyStrip (full_name.getD "") = "" → pyStrip (username.getD "") ≠ "" →
      alertDisplay full_name username =
        "Кандидат" ++ " (@" ++ pyStrip (username.getD "") ++ ")") ∧
    (pyStrip (full_name.getD "") = "" → pyStrip (username.getD "") = "" →
      alertDisplay full_name username = "Кандидат") := by
  refine ⟨?_, ?_, ?_, ?_⟩ <;> intro h1 h2 <;> simp [alertDisplay, h1, h2]

/-- C9 witness: full name and handle both present. -/
theorem C9_witness :
    alertDisplay (some "Боб") (some "alice") = "Боб (@alice)" := by
  have h := (C9_display_name (some "Боб") (some "alice")).1 (by decide) (by decide)
  rw [h]
  decide

theorem isValidHttpUrl_strip (t : String) :
    _is_valid_http_url (pyStrip t) = _is_valid_http_url t := by
  rw [_is_valid_http_url, _is_valid_http_url, pyStrip_idem]

/-- C1: for every session reaching the link step with an accepted
classification, if scoring fails (raises, or both attempts fail to
parse) the persisted row has `scoring_failed = true`,
`overall_score = 0`, `scores_json` the empty JSON object, and error
text truncated to at most 500 characters, and the user still receives
the completion message with the session state reset to Idle. -/
theorem C1_scoring_failure_persists_and_completes (msgText : Option String)
    (user : UserInfo) (answers : List (String × String)) (ts llmModel e : String)
    (latencyMs : Nat) (appendErr : Option String) (pl : String) (pn : Option String)
    (hcls : classifyLinkFields (_norm msgText) = some (pl, pn)) :
    ∃ row,
      (link_handler msgText user answers ts llmModel (.error e) latencyMs appendErr).row =
        some row ∧
      row.scoring_failed = true ∧
      row.overall_score = 0 ∧
      row.scores_json = "\x7b\x7d" ∧
      row.error = some (pyTake e 500) ∧
      (pyTake e 500).length ≤ 500 ∧
      (link_handler msgText user answers ts llmModel (.error e) latencyMs appendErr).reply =
        LinkReply.completion ∧
      (link_handler msgText user answers ts llmModel (.error e) latencyMs appendErr).step =
        Step.idle := by
  rw [linkHandler_err _ _ _ _ _ _ _ _ _ _ hcls]
  exact ⟨_, rfl, rfl, rfl, rfl, rfl, List.length_take_le _ _, rfl, rfl⟩

/-- C1 witness: a URL submission whose scoring raised `"exploded"`. -/
theorem C1_witness :
    ((link_handler (some "https://z.dev") sampleUser [] "ts" "m" (.error "exploded") 7
        none).reply = LinkReply.completion) ∧
      ((link_handler (some "https://z.dev") sampleUser [] "ts" "m" (.error "exploded") 7
        none).step = Step.idle) := by
  obtain ⟨row, hrow, h1, h2, h3, h4, h5, h6, h7⟩ :=
    C1_scoring_failure_persists_and_completes (some "https://z.dev") sampleUser [] "ts" "m"
      "exploded" 7 none "https://z.dev" none (by decide)
  exact ⟨h6, h7⟩

/-- C8: an input at the link step that both starts with `http://` or
`https://` and satisfies the NDA-note predicate is classified as a
URL, not as an NDA note: `project_link` is the literal (normalized)
text and `project_note` stays unset. -/
theorem C8_url_precedes_nda_note (msgText : Option String) (user : UserInfo)
    (answers : List (String × String)) (ts llmModel : String)
    (scoring : Except String ScoreResult) (latencyMs : Nat) (appendErr : Option String)
    (hurl : _is_valid_http_url (_norm msgText) = true)
    (_hnote : _is_reasonable_nda_note (_norm msgText) = true) :
    ∃ row,
      (link_handler msgText user answers ts llmModel scoring latencyMs appendErr).row =
        some row ∧
      row.project_link = _norm msgText ∧
      row.project_note = none := by
  have hstripnorm : pyStrip (_norm msgText) = _norm msgText := by
    rw [_norm]; exact pyStrip_idem _
  have hstart : ("http".data : List Char) <+: (pyStrip (_norm msgText)).data := by
    rw [_is_valid_http_url] at hurl
    simp only [Bool.or_eq_true] at hurl
    rcases hurl with h | h
    · exact List.IsPrefix.trans (by decide) (pyStartsWith_iff.mp h)
    · exact List.IsPrefix.trans (by decide) (pyStartsWith_iff.mp h)
  have hdecl : _is_decline (pyStrip (_norm msgText)) = false := not_decline_of_http _ hstart
  have hurl2 : _is_valid_http_url (pyStrip (_norm msgText)) = true := by
    rw [isValidHttpUrl_strip]; exact hurl
  have hcls : classifyLinkFields (_norm msgText) =
      some (pyStrip (_norm msgText), none) := by
    rw [classifyLinkFields, if_neg (by simp [hdecl]), if_pos hurl2]
  rw [hstripnorm] at hcls
  cases scoring with
  | ok s =>
    rw [linkHandler_ok _ _ _ _ _ _ _ _ _ _ hcls]
    exact ⟨_, rfl, rfl, rfl⟩
  | error e2 =>
    rw [linkHandler_err _ _ _ _ _ _ _ _ _ _ hcls]
    exact ⟨_, rfl, rfl, rfl⟩

/-- C8 witness: a URL followed by prose satisfies both predicates and
is stored verbatim as the link with no note. -/
theorem C8_witness :
    ((link_handler (some "https://x.com my project") sampleUser [] "ts" "m"
        (.ok sampleScoreOk) 1 none).row.map (fun r => (r.project_link, r.project_note))) =
      some ("https://x.com my project", none) := by
  obtain ⟨row, hrow, hpl, hpn⟩ :=
    C8_url_precedes_nda_note (some "https://x.com my project") sampleUser [] "ts" "m"
      (.ok sampleScoreOk) 1 none (by decide) (by decide)
  rw [hrow]
  rw [Option.map_some']
  rw [hpl, hpn]
  decide

/-- C10: in every persisted row, `project_note` is non-None only when
`project_link` is the tag `"nda"` with an accepted free-text note; a
valid URL submission, a decline, and the bare `"nda"` marker all yield
`project_note = None`. -/
theorem C10_note_only_with_accepted_nda (msgText : Option String) (user : UserInfo)
    (answers : List (String × String)) (ts llmModel : String)
    (scoring : Except String ScoreResult) (latencyMs : Nat) (appendErr : Option String)
    (row : Row)
    (h : (link_handler msgText user answers ts llmModel scoring latencyMs appendErr).row =
        some row) :
    (∀ note, row.project_note = some note →
        row.project_link = "nda" ∧ _is_reasonable_nda_note note = true) ∧
    (_is_decline (pyStrip (_norm msgText)) = true ∨
      _is_valid_http_url (pyStrip (_norm msgText)) = true ∨
      pyLower (pyStrip (_norm msgText)) = "nda" →
        row.project_note = none) := by
  by_cases hne : _norm msgText = ""
  · rw [link_handler, if_pos hne] at h
    exact absurd h (by simp)
  cases hcls : classifyLinkFields (_norm msgText) with
  | none =>
    rw [linkHandler_rejected _ _ _ _ _ _ _ _ hne hcls] at h
    exact absurd h (by simp)
  | some pf =>
    obtain ⟨pl, pn⟩ := pf
    have hfields : row.project_link = pl ∧ row.project_note = pn := by
      cases scoring with
      | ok s =>
        rw [linkHandler_ok _ _ _ _ _ _ _ _ _ _ hcls] at h
        obtain rfl : _ = row := Option.some.inj h
        exact ⟨rfl, rfl⟩
      | error e =>
        rw [linkHandler_err _ _ _ _ _ _ _ _ _ _ hcls] at h
        obtain rfl : _ = row := Option.some.inj h
        exact ⟨rfl, rfl⟩
    obtain ⟨hpl, hpn⟩ := hfields
    rcases classifyLinkFields_cases hcls with
      ⟨hd, hpl2, hpn2⟩ | ⟨hd, hu, hpl2, hpn2⟩ | ⟨hd, hu, hn, hpl2, hpn2⟩ |
      ⟨hd, hu, hn, hnote, hpl2, hpn2⟩
    · refine ⟨?_, fun _ => hpn.trans hpn2⟩
      intro note hnote2
      rw [hpn, hpn2] at hnote2
      exact absurd hnote2 (by simp)
    · refine ⟨?_, fun _ => hpn.trans hpn2⟩
      intro note hnote2
      rw [hpn, hpn2] at hnote2
      exact absurd hnote2 (by simp)
    · refine ⟨?_, fun _ => hpn.trans hpn2⟩
      intro note hnote2
      rw [hpn, hpn2] at hnote2
      exact absurd hnote2 (by simp)
    · constructor
      · intro note hnote2
        rw [hpn, hpn2] at hnote2
        obtain rfl : pyStrip (_norm msgText) = note := Option.some.inj hnote2
        exact ⟨hpl.trans hpl2, hnote⟩
      · rintro (hc | hc | hc)
        · rw [hc] at hd; exact absurd hd (by simp)
        · rw [hc] at hu; exact absurd hu (by simp)
        · exact absurd hc hn

set_option maxRecDepth 8000 in
/-- C10 witness: an accepted NDA note is stored with link tag `nda`,
and the note satisfies the NDA-note predicate. -/
theorem C10_witness :
    (sampleNoteRow.project_link = "nda" ∧
      _is_reasonable_nda_note "nda: built a RAG pipeline" = true) :=
  (C10_note_only_with_accepted_nda (some "nda: built a RAG pipeline") sampleUser [] "ts" "m"
      (.ok sampleScoreOk) 1 none sampleNoteRow (by decide)).1
    "nda: built a RAG pipeline" (by decide)

set_option maxRecDepth 8000 in
/-- C3 counterexample: `"github.com\nx.com"` is a bare domain without
scheme per the repository's own predicate, yet the link handler
accepts it as an NDA note (the newline becomes a space in the word
count), producing a record instead of the corrective reprompt. -/
theorem C3_counterexample :
    _looks_like_domain_without_scheme (_norm (some "github.com\nx.com")) = true ∧
      (link_handler (some "github.com\nx.com") sampleUser [] "ts" "m" (.ok sampleScoreOk) 1
          none).reply ≠ LinkReply.badFormat ∧
      (link_handler (some "github.com\nx.com") sampleUser [] "ts" "m" (.ok sampleScoreOk) 1
          none).row ≠ none := by
  refine ⟨by decide, by decide, by decide⟩

/-- C3 (amended): a bare-domain input without scheme (per the
repository's `_looks_like_domain_without_scheme` predicate) that
contains no newline character — in particular any single token such as
`"github.com"` — is treated identically to Invalid at the link step:
the corrective message listing the accepted formats is sent, the state
stays at the link step, and no answer or record is produced.  (A
bare-domain input with an embedded newline can instead be accepted as
an NDA note, see the counterexample.) -/
theorem C3_bare_domain_rejected (msgText : Option String) (user : UserInfo)
    (answers : List (String × String)) (ts llmModel : String)
    (scoring : Except String ScoreResult) (latencyMs : Nat) (appendErr : Option String)
    (hdom : _looks_like_domain_without_scheme (_norm msgText) = true)
    (hnl : '\n' ∉ (_norm msgText).data) :
    link_handler msgText user answers ts llmModel scoring latencyMs appendErr =
      ⟨.link, answers, none, false, .badFormat⟩ := by
  obtain ⟨hlow_ne, hh1, hh2, hsp, hdot⟩ := dws_facts _ hdom
  have htext_ne : _norm msgText ≠ "" := by
    intro h0
    apply hlow_ne
    rw [h0]
    rfl
  have hsp_t : ' ' ∉ (pyStrip (_norm msgText)).data := by
    intro hm
    have h1 : ' ' ∈ (pyLower (pyStrip (_norm msgText))).data := by
      have h2 := List.mem_map_of_mem pyLowerChar hm
      rwa [show pyLowerChar ' ' = ' ' from by decide] at h2
    have hP : ¬ (([' '] : List Char) <:+: (pyLower (pyStrip (_norm msgText))).data) := by
      rw [pyContains] at hsp
      exact of_decide_eq_false hsp
    exact hP ((singleton_infix_iff ' ' _).mpr h1)
  have hnl_t : '\n' ∉ (pyStrip (_norm msgText)).data := by
    intro hm
    apply hnl
    have : (pyStrip (_norm msgText)).data = pyStripL (_norm msgText).data := rfl
    rw [this] at hm
    exact mem_of_mem_stripL hm
  have hdecl : _is_decline (pyStrip (_norm msgText)) = false := not_decline_of_dot _ hdot
  have hurl : _is_valid_http_url (pyStrip (_norm msgText)) = false := by
    rw [isValidHttpUrl_strip, _is_valid_http_url, Bool.or_eq_false_iff]
    constructor
    · by_contra hc
      rw [Bool.not_eq_false] at hc
      have h2 := pyStartsWith_lower (by decide) hc
      rw [hh1] at h2
      exact absurd h2 (by simp)
    · by_contra hc
      rw [Bool.not_eq_false] at hc
      have h2 := pyStartsWith_lower (by decide) hc
      rw [hh2] at h2
      exact absurd h2 (by simp)
  have hnda : ¬ (pyLower (pyStrip (_norm msgText)) = "nda") := by
    intro h0
    rw [h0] at hdot
    exact absurd hdot (by decide)
  have hnote : _is_reasonable_nda_note (pyStrip (_norm msgText)) = false := by
    apply nda_note_false_of_single
    · rw [pyStrip_idem]; exact hsp_t
    · rw [pyStrip_idem]; exact hnl_t
  have hcls : classifyLinkFields (_norm msgText) = none := by
    rw [classifyLinkFields, if_neg (by simp [hdecl]), if_neg (by simp [hurl]),
      if_neg hnda, if_neg (by simp [hnote])]
  exact linkHandler_rejected _ _ _ _ _ _ _ _ htext_ne hcls

/-- C3 witness: the single token `"github.com"` is rejected with the
corrective message, the state stays at the link step and no record is
produced. -/
theorem C3_witness :
    _looks_like_domain_without_scheme (_norm (some "github.com")) = true ∧
      link_handler (some "github.com") sampleUser [("q1", "a")] "ts" "m" (.ok sampleScoreOk)
          1 none =
        ⟨Step.link, [("q1", "a")], none, false, LinkReply.badFormat⟩ :=
  ⟨by decide,
    C3_bare_domain_rejected (some "github.com") sampleUser [("q1", "a")] "ts" "m"
      (.ok sampleScoreOk) 1 none (by decide) (by decide)⟩

/-- C6: the admin summary with the top-only filter computes all
aggregates — total count, average (rounded to one decimal),
top-candidate count, scoring-failed count, and the top-3 leaderboard
sorted by overall score descending then timestamp descending — over
only the top-flagged rows (filtering happens before aggregation), and
an empty filtered set yields the distinct "no top candidates"
indicator, not the "never ran" indicator used for an empty store. -/
theorem C6_top_filter_before_aggregation :
    (∀ rows : List RawRow, _render_admin_stats true rows = adminStatsSpecTop rows) ∧
    (∀ rows : List RawRow, ((sortDesc (keptTop rows)).take 3).Pairwise keyGe) ∧
    StatsOutcome.noTop ≠ StatsOutcome.noRuns := by
  refine ⟨renderAdminStats_top_eq, ?_, by decide⟩
  intro rows
  have hs := List.sorted_insertionSort keyGe (keptTop rows)
  exact List.Pairwise.sublist (List.take_sublist 3 _) hs

end TalentLens
